import Mathlib

/-!
Shallow embedding of the MeshExplorer telemetry store.

The embedding follows the ClickHouse schema documented in the repository
(tables `meshcore_packets` and `meshcore_adverts`, the materialized view
`meshcore_adverts_latest`, the neighbor helper view) and the HTTP handler
`src/app/api/wardrive/put-sample/route.ts`.  `DateTime64` timestamps are
modelled as natural numbers, `Float64` coordinates as rationals, `UInt8`
flags as natural numbers, partition buckets (`toYYYYMM`) as coarse
fixed-width time buckets.
-/

/-- Advert-sourced attribute columns of `meshcore_adverts_latest`.  Every one
of these columns is aggregated by `argMax(column, ingest_timestamp)` over the
same stream with the same key, so they all follow one shared winner; they are
bundled in a single structure. -/
structure AdvertAttrs where
  node_name : String
  latitude : Option Rat
  longitude : Option Rat
  altitude : Option Int
  has_location : Nat
  is_repeater : Nat
  is_chat_node : Nat
  is_room_server : Nat
  has_name : Nat
  broker : String
  topic : String
deriving DecidableEq

/-- One row of the `meshcore_adverts` table. -/
structure Advert where
  ingest_timestamp : Nat
  mesh_timestamp : Nat
  adv_timestamp : Nat
  public_key : String
  node_name : String
  latitude : Option Rat
  longitude : Option Rat
  altitude : Option Int
  has_location : Nat
  is_repeater : Nat
  is_chat_node : Nat
  is_room_server : Nat
  has_name : Nat
  broker : String
  topic : String
  path : String
  path_len : Nat
  origin_pubkey : String
  packet_hash : String
deriving DecidableEq

/-- Projection of an advert row onto the argMax-aggregated columns. -/
def advAttrs (r : Advert) : AdvertAttrs :=
  { node_name := r.node_name, latitude := r.latitude, longitude := r.longitude,
    altitude := r.altitude, has_location := r.has_location,
    is_repeater := r.is_repeater, is_chat_node := r.is_chat_node,
    is_room_server := r.is_room_server, has_name := r.has_name,
    broker := r.broker, topic := r.topic }

/-- One row of the materialized view `meshcore_adverts_latest` for a fixed
`public_key`: the argMax attributes, `min(ingest_timestamp)` as `first_seen`,
`max(ingest_timestamp)` as `last_seen` and `count()` as `advert_count`. -/
structure NodeState where
  attrs : AdvertAttrs
  first_seen : Nat
  last_seen : Nat
  advert_count : Nat
deriving DecidableEq

/-- Incremental aggregation step of `meshcore_adverts_latest` on one more
advert row: `argMax(x, ingest_timestamp)` replaces the held value only when
the incoming key is strictly greater than the running maximum (which equals
`last_seen`); `min`, `max` and `count()` update pointwise. -/
def mergeAdvert (s : NodeState) (r : Advert) : NodeState :=
  { attrs := if s.last_seen < r.ingest_timestamp then advAttrs r else s.attrs
    first_seen := min s.first_seen r.ingest_timestamp
    last_seen := max s.last_seen r.ingest_timestamp
    advert_count := s.advert_count + 1 }

/-- View row created from the first advert of an identity. -/
def initState (r : Advert) : NodeState :=
  { attrs := advAttrs r, first_seen := r.ingest_timestamp,
    last_seen := r.ingest_timestamp, advert_count := 1 }

/-- One incremental update of the optional view row. -/
def step : Option NodeState → Advert → Option NodeState
  | none, r => some (initState r)
  | some s, r => some (mergeAdvert s r)

/-- Incremental materialization of the view row of one identity from its
advert rows taken in arrival order. -/
def materialize (l : List Advert) : Option NodeState :=
  l.foldl step none

/-- Point lookup of an identity: materialize the adverts of that
`public_key` out of the log. -/
def get_node (log : List Advert) (id : String) : Option NodeState :=
  materialize (log.filter (fun r => r.public_key == id))

/-- Lexicographic character order on strings (the order of `String.lt`,
stated on the character lists so that it evaluates). -/
def strLT (a b : String) : Prop := a.data < b.data

instance : DecidableRel strLT := fun a b => by
  unfold strLT; infer_instance

/-- Reflexive closure of `strLT`, the order of `String.le`. -/
def strLE (a b : String) : Prop := ¬ strLT b a

instance : DecidableRel strLE := fun a b => by
  unfold strLE; infer_instance

/-- Historical recomputation order: ingest time first, ties broken by the
record fingerprint (the `packet_hash` column). -/
def histLE (a b : Advert) : Prop :=
  a.ingest_timestamp < b.ingest_timestamp ∨
    (a.ingest_timestamp = b.ingest_timestamp ∧ strLE a.packet_hash b.packet_hash)

instance : DecidableRel histLE := fun a b => by
  unfold histLE; infer_instance

/-- Full historical recomputation: sort all advert rows of the identity by
ingest time (ties by fingerprint) and fold left-to-right. -/
def recomputeState (l : List Advert) : Option NodeState :=
  materialize (List.insertionSort histLE l)

/-- Outcome of the deduplication check at the ingest boundary. -/
inductive IngestStatus where
  | accepted
  | duplicate
deriving DecidableEq

/-- An inbound record as seen by the deduplicator, before storage: the
variant discriminant, the claimed origin identity, the mesh timestamp and the
variant-specific payload bytes, together with the two fields the digest must
ignore (`ingest_time`, `broker`). -/
structure InboundRecord where
  variant : Nat
  origin : String
  mesh_time : Nat
  payload : List Nat
  ingest_time : Nat
  broker : String
deriving DecidableEq

/-- Modelled from the spec: the ingestion code computing the `packet_hash`
column of `meshcore_adverts` is not in the repository snapshot (the schema
document only declares the column as the deduplication hash).  The
cryptographic digest is modelled as the tuple of the digested fields — an
injective stand-in — over the variant discriminant, origin identity,
mesh time and payload bytes, excluding `ingest_time` and `broker`. -/
def fingerprint (r : InboundRecord) : Nat × String × Nat × List Nat :=
  (r.variant, r.origin, r.mesh_time, r.payload)

/-- Modelled from the spec: the deduplicator's atomic test-and-insert on the
recent-fingerprint set. -/
def check_and_register (seen : List (Nat × String × Nat × List Nat))
    (fp : Nat × String × Nat × List Nat) :
    IngestStatus × List (Nat × String × Nat × List Nat) :=
  if fp ∈ seen then (.duplicate, seen) else (.accepted, fp :: seen)

/-- Modelled from the spec: running the ingest boundary over a list of
inbound records returns the per-record statuses and the number of records
that reached the store and hence triggered a materializer update. -/
def ingestRun (rs : List InboundRecord)
    (seen : List (Nat × String × Nat × List Nat)) : List IngestStatus × Nat :=
  match rs with
  | [] => ([], 0)
  | r :: rest =>
    let p := check_and_register seen (fingerprint r)
    let q := ingestRun rest p.2
    (p.1 :: q.1, (if p.1 = .accepted then 1 else 0) + q.2)

/-- Edge key of the neighbor index: in `meshcore_adverts`, `public_key` is
the advertising origin node and `origin_pubkey` is the hearing gateway node;
the `path_len = 0` neighbor query pairs exactly these two columns. -/
def edgeKey (r : Advert) : String × String :=
  (r.public_key, r.origin_pubkey)

/-- Modelled from the spec: the definition of the helper view
`node_neighbor_relationships` (columns `source_node`, `target_node`,
`connection_count`, `last_connection`) is not in the repository snapshot;
only its columns and the `path_len = 0` neighbor query are.  The edge index
maps an edge key to its connection count and last connection time; a zero-hop
advert upserts its edge, a multi-hop advert changes nothing. -/
def updateEdges (es : String × String → Nat × Nat) (r : Advert) :
    String × String → Nat × Nat :=
  if r.path_len = 0 then
    fun k => if k = edgeKey r then ((es (edgeKey r)).1 + 1, r.ingest_timestamp) else es k
  else es

/-- State of the ingest pipeline for advert records: the fingerprints already
seen, the materialized view row, and the neighbor edge index. -/
structure IngestState where
  seen : List String
  node : Option NodeState
  edges : String × String → Nat × Nat

/-- Modelled from the spec: one advert through the full ingest pipeline —
the deduplicator gates on `packet_hash`; only an accepted record updates the
materializer and the neighbor index. -/
def ingestAdvert (st : IngestState) (r : Advert) : IngestState :=
  if r.packet_hash ∈ st.seen then st
  else { seen := r.packet_hash :: st.seen, node := step st.node r,
         edges := updateEdges st.edges r }

/-- Empty pipeline state. -/
def emptyIngest : IngestState :=
  { seen := [], node := none, edges := fun _ => (0, 0) }

/-- Run the advert ingest pipeline over a list of records in arrival order. -/
def runIngest (l : List Advert) : IngestState :=
  l.foldl ingestAdvert emptyIngest

/-- Partition bucket of an ingest timestamp: the schema partitions by
`toYYYYMM(ingest_timestamp)`, a coarse fixed-width time bucket; `P` is the
bucket width. -/
def timeBucket (P t : Nat) : Nat := t / P

/-- Modelled from the spec: the retention manager drops exactly the
partitions whose entire ingest-time range `[b*P, (b+1)*P)` is older than
`now - ttl`; rows of every other partition survive untouched (whole-partition
eviction, never partial). -/
def evictExpired (P ttl now : Nat) (log : List Advert) : List Advert :=
  log.filter (fun r => ¬ ((timeBucket P r.ingest_timestamp + 1) * P ≤ now - ttl))

/-- One row of the `meshcore_packets` table, restricted to the primary-key
columns `(ingest_timestamp, broker, topic)` and the raw packet body. -/
structure Packet where
  ingest_timestamp : Nat
  broker : String
  topic : String
  packet : String
deriving DecidableEq

/-- Storage order of `meshcore_packets`: lexicographic on the `ORDER BY`
key `(ingest_timestamp, broker, topic)`. -/
def packetKeyLE (a b : Packet) : Prop :=
  a.ingest_timestamp < b.ingest_timestamp ∨
    (a.ingest_timestamp = b.ingest_timestamp ∧
      (strLT a.broker b.broker ∨ (a.broker = b.broker ∧ strLE a.topic b.topic)))

instance : DecidableRel packetKeyLE := fun a b => by
  unfold packetKeyLE; infer_instance

/-- Storage order of `meshcore_adverts`: lexicographic on the `ORDER BY`
key `(public_key, ingest_timestamp)`. -/
def advertKeyLE (a b : Advert) : Prop :=
  strLT a.public_key b.public_key ∨
    (a.public_key = b.public_key ∧ a.ingest_timestamp ≤ b.ingest_timestamp)

instance : DecidableRel advertKeyLE := fun a b => by
  unfold advertKeyLE; infer_instance

/-- Plain ingest-time order on packet rows. -/
def ingestLE (a b : Packet) : Prop :=
  a.ingest_timestamp ≤ b.ingest_timestamp

instance : DecidableRel ingestLE := fun a b => by
  unfold ingestLE; infer_instance

/-- Bucket of a packet row under partition width `P`. -/
def packetBucket (P : Nat) (r : Packet) : Nat :=
  timeBucket P r.ingest_timestamp

/-- A multi-partition scan of `meshcore_packets`: partitions listed with
their bucket numbers in storage order, concatenated. -/
def scanPackets (parts : List (Nat × List Packet)) : List Packet :=
  (parts.map Prod.snd).flatten

/-- A parsed JSON value, as produced by `req.json()` in the handler. -/
inductive JVal where
  | null
  | bool (b : Bool)
  | num (n : Int)
  | str (s : String)
  | arr (xs : List JVal)
  | obj (fields : List (String × JVal))

/-- Field access `body.k` on a parsed JSON value: defined on objects, absent
otherwise. -/
def JVal.getField : JVal → String → Option JVal
  | .obj fs, k => fs.lookup k
  | _, _ => none

mutual

/-- Rendering of one array element by `Array.prototype.join`: `null` and
`undefined` render as the empty string, nested arrays recursively as their
comma join, plain objects as the standard object tag. -/
def jsJoinElem : JVal → String
  | .null => ""
  | .bool b => if b then "true" else "false"
  | .num n => toString n
  | .str s => s
  | .arr xs => jsJoinElems xs
  | .obj _ => "[object Object]"

/-- Comma-separated rendering of a nested array, as `toString` does. -/
def jsJoinElems : List JVal → String
  | [] => ""
  | [x] => jsJoinElem x
  | x :: y :: rest => jsJoinElem x ++ "," ++ jsJoinElems (y :: rest)

end

/-- The handler calls `body.path.join(WithNoSeparator)`: the concatenation of
the rendered elements. -/
def jsJoinEmpty (xs : List JVal) : String :=
  String.join (xs.map jsJoinElem)

/-- A thrown JavaScript value as observed by the `catch` block: whether it is
an `Error` instance, and its message. -/
structure Thrown where
  isError : Bool
  message : String
deriving DecidableEq

/-- Substring test on character lists. -/
def charsInfix (pat : List Char) : List Char → Bool
  | [] => pat.isEmpty
  | c :: rest => pat.isPrefixOf (c :: rest) || charsInfix pat rest

/-- JavaScript `haystack.includes(needle)`. -/
def strIncludes (s pat : String) : Bool :=
  charsInfix pat.data s.data

/-- The JSON response produced by the handler: HTTP status plus the three
possible body fields. -/
structure HttpResponse where
  status : Nat
  result : Option String
  error : Option String
  code : Option String
deriving DecidableEq

/-- Success response of the handler. -/
def okResponse : HttpResponse :=
  { status := 200, result := some "ok", error := none, code := none }

/-- Response for a ClickHouse connection error. -/
def dbErrorResponse : HttpResponse :=
  { status := 503, result := none,
    error := some "Database temporarily unavailable",
    code := some "DATABASE_ERROR" }

/-- Fallback error response. -/
def internalErrorResponse : HttpResponse :=
  { status := 500, result := none,
    error := some "Error while inserting",
    code := some "INTERNAL_ERROR" }

/-- The catch block of the handler: 503 when the thrown value is an `Error`
whose message contains the substring ClickHouse, 500 otherwise. -/
def errorResponse (e : Thrown) : HttpResponse :=
  if e.isError && strIncludes e.message "ClickHouse" then dbErrorResponse
  else internalErrorResponse

/-- Thrown value for member access `join` on a missing field (JavaScript
TypeError: cannot read properties of undefined). -/
def missingJoinThrown : Thrown :=
  { isError := true,
    message := "Cannot read properties of undefined reading join" }

/-- Thrown value for calling `join` on a non-array value (JavaScript
TypeError: body.path.join is not a function). -/
def nonArrayJoinThrown : Thrown :=
  { isError := true, message := "body.path.join is not a function" }

/-- Observable outcome of one handler invocation: the HTTP response, whether
`putSample` was reached, and if so which joined path string was inserted. -/
structure PostResult where
  response : HttpResponse
  putCalled : Bool
  insertedPath : Option String
deriving DecidableEq

/-- Evaluation of the expression `body.path.join(WithNoSeparator)`: its
string value when `path` is an array, the thrown TypeError when `path` is
missing (member access on undefined) or not an array (`join` is not a
function). -/
def pathJoinResult (body : JVal) : Except Thrown String :=
  match body.getField "path" with
  | none => .error missingJoinThrown
  | some (.arr xs) => .ok (jsJoinEmpty xs)
  | some _ => .error nonArrayJoinThrown

/-- The handler body after a successful `req.json()`: overwrite the sample
path with the joined array (propagating its TypeError), insert, and map any
thrown value through the catch block. -/
def POSTok (body : JVal) (putResult : Except Thrown Unit) : PostResult :=
  match pathJoinResult body with
  | .error e =>
    { response := errorResponse e, putCalled := false, insertedPath := none }
  | .ok p =>
    match putResult with
    | .ok _ =>
      { response := okResponse, putCalled := true, insertedPath := some p }
    | .error e =>
      { response := errorResponse e, putCalled := true, insertedPath := some p }

/-- The `POST /api/wardrive/put-sample` handler of `route.ts`, parametrized
by the outcome of `req.json()` and by the outcome of `putSample`. -/
def POST (parsed : Except Thrown JVal) (putResult : Except Thrown Unit) :
    PostResult :=
  match parsed with
  | .error e =>
    { response := errorResponse e, putCalled := false, insertedPath := none }
  | .ok body => POSTok body putResult

/-- The first value thrown after a successful parse, if any. -/
def thrownOfOk (body : JVal) (putResult : Except Thrown Unit) : Option Thrown :=
  match pathJoinResult body with
  | .error e => some e
  | .ok _ =>
    match putResult with
    | .ok _ => none
    | .error e => some e

/-- The first value thrown during one handler invocation, if any: a parse
error, a TypeError from the `join` call, or the `putSample` failure. -/
def thrownOf (parsed : Except Thrown JVal) (putResult : Except Thrown Unit) :
    Option Thrown :=
  match parsed with
  | .error e => some e
  | .ok body => thrownOfOk body putResult

/-- Shape test used by the handler theorems: does the body have a `path`
field holding an array. -/
def isPathArray (body : JVal) : Bool :=
  match body.getField "path" with
  | some (.arr _) => true
  | _ => false

/-- Advert-row constructor fixing the fields that the stated properties do
not vary. -/
def mkAdvert (t : Nat) (key name hash : String) (lat lon : Option Rat)
    (plen : Nat) (origin : String) : Advert :=
  { ingest_timestamp := t, mesh_timestamp := t, adv_timestamp := t,
    public_key := key, node_name := name, latitude := lat, longitude := lon,
    altitude := none, has_location := 1, is_repeater := 0, is_chat_node := 0,
    is_room_server := 0, has_name := 1, broker := "b", topic := "t",
    path := "", path_len := plen, origin_pubkey := origin, packet_hash := hash }

/-- Two adverts of one identity with equal ingest times, distinct
fingerprints and distinct names. -/
def tieA : Advert := mkAdvert 0 "N1" "alpha" "a" none none 0 "H"

/-- Companion of `tieA` with the later fingerprint. -/
def tieB : Advert := mkAdvert 0 "N1" "beta" "b" none none 0 "H"

/-- Advert with ingest time 1, used to instantiate distinct-ingest results. -/
def wOne : Advert := mkAdvert 1 "N1" "one" "k1" none none 0 "H"

/-- Advert with ingest time 2, companion of `wOne`. -/
def wTwo : Advert := mkAdvert 2 "N1" "two" "k2" none none 0 "H"

/-- First scenario advert: N1 at time 1 with position (47.6, -122.3). -/
def advAlice1 : Advert :=
  mkAdvert 1 "N1" "Alice" "h1" (some 47.6) (some (-122.3)) 0 "H"

/-- Second scenario advert: N1 at time 2 with position (47.7, -122.1). -/
def advAlice2 : Advert :=
  mkAdvert 2 "N1" "Alice" "h2" (some 47.7) (some (-122.1)) 0 "H"

/-- Advert used for the repeated-application counterexample. -/
def advDup : Advert := mkAdvert 3 "N9" "dd" "hd" none none 0 "H"

/-- Advert ingested 95 time units before `now = 100`: older than a 90-unit
ttl but inside the straddling partition `[0, 30)`. -/
def advOld : Advert := mkAdvert 5 "N2" "old" "ho" none none 0 "H"

/-- Stored row of `meshcore_adverts` with the smaller key and the larger
ingest time. -/
def advStoreA : Advert := mkAdvert 10 "A" "na" "ha" none none 0 "H"

/-- Stored row of `meshcore_adverts` with the larger key and the smaller
ingest time. -/
def advStoreB : Advert := mkAdvert 5 "B" "nb" "hb" none none 0 "H"

/-- Zero-hop advert from origin O1 heard by gateway H1 at time 7. -/
def advZeroHop : Advert := mkAdvert 7 "O1" "zz" "hz" none none 0 "H1"

/-- Multi-hop advert (two relays) from origin O1. -/
def advMultiHop : Advert := mkAdvert 8 "O1" "zz" "hm" none none 2 "H1"

/-- Packet rows of one partition and of the following partition. -/
def pkt1 : Packet := { ingest_timestamp := 5, broker := "a", topic := "t", packet := "x" }

/-- Second packet of the first partition, later ingest, other broker. -/
def pkt2 : Packet := { ingest_timestamp := 10, broker := "b", topic := "t", packet := "y" }

/-- Packet of the second partition. -/
def pkt3 : Packet := { ingest_timestamp := 35, broker := "a", topic := "t", packet := "z" }

/-- A two-partition packet store with width-30 buckets. -/
def examplePartitions : List (Nat × List Packet) := [(0, [pkt1, pkt2]), (1, [pkt3])]

/-- Inbound record observed by broker b1. -/
def inb1 : InboundRecord :=
  { variant := 1, origin := "N1", mesh_time := 5, payload := [1, 2, 3],
    ingest_time := 9, broker := "b1" }

/-- The same physical transmission observed by broker b2, later. -/
def inb2 : InboundRecord :=
  { variant := 1, origin := "N1", mesh_time := 5, payload := [1, 2, 3],
    ingest_time := 12, broker := "b2" }

/-- Request body with a two-element string `path` array. -/
def bodyGood : JVal :=
  .obj [("path", .arr [.str "ab", .str "cd"]), ("latitude", .num 47)]

/-- Request body without a `path` field. -/
def bodyNoPath : JVal := .obj [("latitude", .num 47)]

/-- Request body whose latitude is far out of the [-90, 90] range but whose
`path` field is a well-formed array. -/
def bodyOutOfRange : JVal := .obj [("latitude", .num 200), ("path", .arr [])]

/-- Specification of the handler response against the thrown value: exactly
one of the three responses, 200 ok exactly when nothing was thrown, 503
DATABASE_ERROR exactly when the thrown value is an `Error` whose message
contains ClickHouse, 500 INTERNAL_ERROR exactly on every other thrown
value. -/
def respSpec (resp : HttpResponse) (thr : Option Thrown) : Prop :=
  (resp = okResponse ∨ resp = dbErrorResponse ∨ resp = internalErrorResponse) ∧
  (resp = okResponse ↔ thr = none) ∧
  (resp = dbErrorResponse ↔ ∃ e, thr = some e ∧
    (e.isError && strIncludes e.message "ClickHouse") = true) ∧
  (resp = internalErrorResponse ↔ ∃ e, thr = some e ∧
    (e.isError && strIncludes e.message "ClickHouse") = false)

/-- Merging two adverts with distinct ingest times into a node state
commutes. -/
theorem mergeAdvert_comm {x y : Advert}
    (h : x.ingest_timestamp ≠ y.ingest_timestamp) (s : NodeState) :
    mergeAdvert (mergeAdvert s x) y = mergeAdvert (mergeAdvert s y) x := by
  unfold mergeAdvert
  simp only [NodeState.mk.injEq]
  refine ⟨?_, by omega, by omega, trivial⟩
  split_ifs <;> first | rfl | omega

/-- The incremental view update commutes on adverts with distinct ingest
times, including the creation step. -/
theorem step_comm {x y : Advert}
    (h : x.ingest_timestamp ≠ y.ingest_timestamp) (b : Option NodeState) :
    step (step b x) y = step (step b y) x := by
  cases b with
  | none =>
      simp only [step, Option.some.injEq]
      unfold mergeAdvert initState
      simp only [NodeState.mk.injEq]
      refine ⟨?_, by omega, by omega, trivial⟩
      split_ifs <;> first | rfl | omega
  | some s =>
      simp only [step, Option.some.injEq]
      exact mergeAdvert_comm h s

/-- C1 counterexample: with a tied ingest time the incremental merge is
order-dependent and disagrees with the fingerprint-sorted recomputation, so
the claimed equivalence fails as stated.  Arrival order `[tieB, tieA]` keeps
the attributes of `tieB`, while sorting by (ingest time, fingerprint) keeps
those of `tieA`. -/
theorem adverts_latest_tie_breaks_equivalence :
    materialize [tieB, tieA] ≠ recomputeState [tieB, tieA] := by decide

/-- C1 (amended): for advert records of one identity with pairwise distinct
ingest times, the incremental merge applied in any arrival order equals the
fold over the records sorted by ingest time (ties broken by fingerprint);
the code itself has no fingerprint tie-break, so the restriction to distinct
ingest times is necessary. -/
theorem adverts_latest_merge_equiv (l : List Advert)
    (h : l.Pairwise (fun a b => a.ingest_timestamp ≠ b.ingest_timestamp)) :
    materialize l = recomputeState l := by
  unfold recomputeState materialize
  refine List.Perm.foldl_eq' ((List.perm_insertionSort histLE l).symm) ?_ none
  intro x hx y hy b
  by_cases hxy : x = y
  · subst hxy; rfl
  · exact step_comm (h.forall (fun _ _ hab => hab.symm) hx hy hxy) b

/-- C1 witness: the amended equivalence evaluated on a concrete
distinct-ingest pair arriving in reverse time order. -/
theorem adverts_latest_merge_equiv_witness :
    materialize [wTwo, wOne] = recomputeState [wTwo, wOne] :=
  adverts_latest_merge_equiv [wTwo, wOne] (by decide)

/-- C4 counterexample: applying the same advert twice to the materializer
does not yield the same node state as applying it once, because `count()`
counts both applications (`advert_count` 2 against 1). -/
theorem merge_not_strictly_idempotent :
    materialize [advDup, advDup] ≠ materialize [advDup] := by decide

/-- C4 (amended): applying the same advert twice to the materializer changes
nothing except `advert_count`, which counts both applications; and replaying
the identical record through the deduplicated ingest pipeline leaves the
whole store state (fingerprints, node state, neighbor edges) exactly as
after a single successful ingest. -/
theorem merge_idempotent_up_to_count (r : Advert) :
    mergeAdvert (initState r) r = { initState r with advert_count := 2 } ∧
    runIngest [r, r] = runIngest [r] := by
  constructor
  · unfold mergeAdvert initState
    simp
  · unfold runIngest
    simp [ingestAdvert, emptyIngest]

/-- Folding the merge over further adverts adds their number to the count. -/
theorem foldl_merge_count (l : List Advert) :
    ∀ s : NodeState,
      (l.foldl mergeAdvert s).advert_count = s.advert_count + l.length := by
  induction l with
  | nil => intro s; simp
  | cons a rest ih =>
      intro s
      simp only [List.foldl_cons, ih, mergeAdvert, List.length_cons]
      omega

/-- Folding the merge never increases `first_seen`. -/
theorem foldl_merge_first_le (l : List Advert) :
    ∀ s : NodeState, (l.foldl mergeAdvert s).first_seen ≤ s.first_seen := by
  induction l with
  | nil => intro s; simp
  | cons a rest ih =>
      intro s
      simp only [List.foldl_cons]
      refine le_trans (ih (mergeAdvert s a)) ?_
      simp only [mergeAdvert]
      omega

/-- Folding the merge never decreases `last_seen`. -/
theorem foldl_merge_last_ge (l : List Advert) :
    ∀ s : NodeState, s.last_seen ≤ (l.foldl mergeAdvert s).last_seen := by
  induction l with
  | nil => intro s; simp
  | cons a rest ih =>
      intro s
      simp only [List.foldl_cons]
      refine le_trans ?_ (ih (mergeAdvert s a))
      simp only [mergeAdvert]
      omega

/-- Every folded advert's ingest time lies between the resulting `first_seen`
and `last_seen`. -/
theorem foldl_merge_bounds (l : List Advert) :
    ∀ s : NodeState, ∀ r ∈ l,
      (l.foldl mergeAdvert s).first_seen ≤ r.ingest_timestamp ∧
      r.ingest_timestamp ≤ (l.foldl mergeAdvert s).last_seen := by
  induction l with
  | nil => intro s r hr; cases hr
  | cons a rest ih =>
      intro s r hr
      simp only [List.foldl_cons]
      rcases List.mem_cons.1 hr with rfl | hr
      · refine ⟨le_trans (foldl_merge_first_le rest _) ?_,
          le_trans ?_ (foldl_merge_last_ge rest _)⟩
        · simp only [mergeAdvert]; omega
        · simp only [mergeAdvert]; omega
      · exact ih (mergeAdvert s a) r hr

/-- The resulting `first_seen` is the initial one or the ingest time of some
folded advert. -/
theorem foldl_merge_first_attain (l : List Advert) :
    ∀ s : NodeState, (l.foldl mergeAdvert s).first_seen = s.first_seen ∨
      ∃ r ∈ l, r.ingest_timestamp = (l.foldl mergeAdvert s).first_seen := by
  induction l with
  | nil => intro s; left; rfl
  | cons a rest ih =>
      intro s
      simp only [List.foldl_cons]
      rcases ih (mergeAdvert s a) with h | ⟨r, hr, hrt⟩
      · rcases le_total s.first_seen a.ingest_timestamp with hle | hle
        · left; rw [h]; simp only [mergeAdvert]; omega
        · right
          exact ⟨a, List.mem_cons_self _ _, by rw [h]; simp only [mergeAdvert]; omega⟩
      · right; exact ⟨r, List.mem_cons_of_mem _ hr, hrt⟩

/-- The folded attributes either stay those of the initial state (and then
`last_seen` stays as well) or are those of a folded advert whose ingest time
equals the resulting `last_seen`. -/
theorem foldl_merge_attrs (l : List Advert) :
    ∀ s : NodeState,
      ((l.foldl mergeAdvert s).attrs = s.attrs ∧
        (l.foldl mergeAdvert s).last_seen = s.last_seen) ∨
      ∃ r ∈ l, r.ingest_timestamp = (l.foldl mergeAdvert s).last_seen ∧
        (l.foldl mergeAdvert s).attrs = advAttrs r := by
  induction l with
  | nil => intro s; exact Or.inl ⟨rfl, rfl⟩
  | cons a rest ih =>
      intro s
      simp only [List.foldl_cons]
      rcases ih (mergeAdvert s a) with ⟨ha, hl⟩ | ⟨r, hr, hrt, hra⟩
      · by_cases hgt : s.last_seen < a.ingest_timestamp
        · right
          refine ⟨a, List.mem_cons_self _ _, ?_, ?_⟩
          · rw [hl]; simp only [mergeAdvert]; omega
          · rw [ha]; simp only [mergeAdvert, if_pos hgt]
        · left
          constructor
          · rw [ha]; simp only [mergeAdvert, if_neg hgt]
          · rw [hl]; simp only [mergeAdvert]; omega
      · right; exact ⟨r, List.mem_cons_of_mem _ hr, hrt, hra⟩

/-- Folding the incremental step over an existing view row is the fold of the
merge. -/
theorem foldl_step_some (l : List Advert) :
    ∀ s : NodeState, l.foldl step (some s) = some (l.foldl mergeAdvert s) := by
  induction l with
  | nil => intro s; rfl
  | cons a rest ih => intro s; simp only [List.foldl_cons, step, ih]

/-- C5: for every nonempty advert list of one identity, the materialized
state has `advert_count` equal to the number of accepted adverts (each one
counts whether or not it wins the merge), `first_seen` equal to the minimum
ingest time, `last_seen` equal to the maximum ingest time, and the attribute
fields equal to those of a record whose ingest time is that maximum; and in
the two-advert scenario for N1 at times 1 and 2, `get_node` returns the
second record's coordinates (47.7, -122.1) with `first_seen` 1, `last_seen`
2 and `advert_count` 2. -/
theorem adverts_latest_state_fields (r0 : Advert) (l : List Advert) :
    (∃ s, materialize (r0 :: l) = some s ∧
      s.advert_count = (r0 :: l).length ∧
      (∀ r ∈ r0 :: l, s.first_seen ≤ r.ingest_timestamp ∧
        r.ingest_timestamp ≤ s.last_seen) ∧
      (∃ ra ∈ r0 :: l, ra.ingest_timestamp = s.first_seen) ∧
      (∃ rb ∈ r0 :: l, rb.ingest_timestamp = s.last_seen ∧
        s.attrs = advAttrs rb)) ∧
    get_node [advAlice1, advAlice2] "N1" =
      some { attrs := advAttrs advAlice2, first_seen := 1, last_seen := 2,
             advert_count := 2 } ∧
    (advAttrs advAlice2).latitude = some (47.7 : Rat) ∧
    (advAttrs advAlice2).longitude = some (-122.1 : Rat) ∧
    (advAttrs advAlice2).node_name = "Alice" := by
  refine ⟨?_, by rfl, by rfl, by rfl, by rfl⟩
  refine ⟨l.foldl mergeAdvert (initState r0), ?_, ?_, ?_, ?_, ?_⟩
  · show (r0 :: l).foldl step none = _
    simp only [List.foldl_cons, step]
    exact foldl_step_some l (initState r0)
  · rw [foldl_merge_count l (initState r0)]
    simp only [initState, List.length_cons]
    omega
  · intro r hr
    rcases List.mem_cons.1 hr with rfl | hr
    · refine ⟨le_trans (foldl_merge_first_le l _) ?_,
        le_trans ?_ (foldl_merge_last_ge l _)⟩
      · exact le_of_eq rfl
      · exact le_of_eq rfl
    · exact foldl_merge_bounds l (initState r0) r hr
  · rcases foldl_merge_first_attain l (initState r0) with h | ⟨r, hr, hrt⟩
    · exact ⟨r0, List.mem_cons_self _ _, h.symm⟩
    · exact ⟨r, List.mem_cons_of_mem _ hr, hrt⟩
  · rcases foldl_merge_attrs l (initState r0) with ⟨ha, hl⟩ | ⟨r, hr, hrt, hra⟩
    · exact ⟨r0, List.mem_cons_self _ _, hl.symm, ha⟩
    · exact ⟨r, List.mem_cons_of_mem _ hr, hrt, hra⟩

/-- Records whose fingerprints are already registered are all reported
duplicate and trigger no materializer update. -/
theorem ingestRun_all_dup (rs : List InboundRecord) :
    ∀ seen, (∀ x ∈ rs, fingerprint x ∈ seen) →
      ingestRun rs seen = (List.replicate rs.length .duplicate, 0) := by
  induction rs with
  | nil => intro seen h; rfl
  | cons r rest ih =>
      intro seen h
      have hr : fingerprint r ∈ seen := h r (List.mem_cons_self _ _)
      simp only [ingestRun, check_and_register, if_pos hr]
      rw [ih seen (fun x hx => h x (List.mem_cons_of_mem _ hx))]
      simp [List.replicate_succ]

/-- C2: two inbound records agreeing on variant discriminant, origin, mesh
time and payload bytes have equal fingerprints whatever their `broker` and
`ingest_time`, and ingesting such a record followed by any run of
equal-fingerprint re-deliveries yields exactly one Accepted, Duplicate for
all the rest, and exactly one materializer update. -/
theorem dedup_excludes_broker (r1 r2 : InboundRecord)
    (hv : r1.variant = r2.variant) (ho : r1.origin = r2.origin)
    (hm : r1.mesh_time = r2.mesh_time) (hp : r1.payload = r2.payload) :
    fingerprint r1 = fingerprint r2 ∧
    ∀ rs : List InboundRecord, (∀ x ∈ rs, fingerprint x = fingerprint r1) →
      ingestRun (r1 :: rs) [] =
        (.accepted :: List.replicate rs.length .duplicate, 1) := by
  refine ⟨by simp [fingerprint, hv, ho, hm, hp], ?_⟩
  intro rs hall
  have hnot : fingerprint r1 ∉ ([] : List (Nat × String × Nat × List Nat)) :=
    List.not_mem_nil _
  simp only [ingestRun, check_and_register, if_neg hnot]
  rw [ingestRun_all_dup rs [fingerprint r1] (fun x hx => by simp [hall x hx])]
  simp

/-- C2 witness: the broker-b1 and broker-b2 observations of the same
transmission share one fingerprint; ingesting both gives Accepted then
Duplicate and one materializer update. -/
theorem dedup_excludes_broker_witness :
    fingerprint inb1 = fingerprint inb2 ∧
    ingestRun [inb1, inb2] [] = ([.accepted, .duplicate], 1) := by
  have h := dedup_excludes_broker inb1 inb2 rfl rfl rfl rfl
  refine ⟨h.1, ?_⟩
  have h2 := h.2 [inb2]
    (by intro x hx; rcases List.mem_singleton.1 hx with rfl; exact h.1.symm)
  simpa using h2

/-- C7: a zero-hop advert from origin O heard by gateway H increments the
connection count of edge (O, H) by exactly one and sets its last connection
to the record's ingest time, leaving every other edge untouched; an advert
with a non-empty hop path changes no edge at all. -/
theorem edge_update_zero_hop (es : String × String → Nat × Nat) (r : Advert) :
    (r.path_len = 0 →
      updateEdges es r (edgeKey r) =
        ((es (edgeKey r)).1 + 1, r.ingest_timestamp) ∧
      ∀ k, k ≠ edgeKey r → updateEdges es r k = es k) ∧
    (r.path_len ≠ 0 → updateEdges es r = es) := by
  constructor
  · intro h0
    constructor
    · simp [updateEdges, h0]
    · intro k hk; simp [updateEdges, h0, hk]
  · intro h1; simp [updateEdges, h1]

/-- C7 witness: the concrete zero-hop advert creates its edge with count 1
and last connection 7 over the empty index, and the concrete two-hop advert
leaves the empty index unchanged. -/
theorem edge_update_zero_hop_witness :
    updateEdges (fun _ => (0, 0)) advZeroHop (edgeKey advZeroHop) = (1, 7) ∧
    updateEdges (fun _ => (0, 0)) advMultiHop = (fun _ => (0, 0)) := by
  constructor
  · have h := ((edge_update_zero_hop (fun _ => (0, 0)) advZeroHop).1 rfl).1
    simpa [advZeroHop, mkAdvert] using h
  · exact (edge_update_zero_hop (fun _ => (0, 0)) advMultiHop).2 (by decide)

/-- C3 counterexample: with 30-wide partitions, ttl 90 and now 100, the
record ingested at time 5 is older than `now - ttl = 10` but lives in the
partition `[0, 30)` whose range is not entirely expired, so whole-partition
eviction keeps it and the post-eviction scan still returns a record older
than `now - ttl`, contradicting the claim. -/
theorem retention_partition_straddle :
    evictExpired 30 90 100 [advOld] = [advOld] ∧
    advOld.ingest_timestamp < 100 - 90 := ⟨by decide, by decide⟩

/-- C3 (amended): after whole-partition eviction every surviving record is
younger than `now - ttl` by less than one partition width (records of the
partition straddling the cutoff may survive), and the node state of every
identity all of whose records lay in dropped partitions rebuilds to
NotFound. -/
theorem retention_whole_partition (P ttl now : Nat) (log : List Advert) :
    (∀ r ∈ evictExpired P ttl now log,
      now - ttl < r.ingest_timestamp + P) ∧
    (∀ id : String,
      (∀ r ∈ log, r.public_key = id →
        (timeBucket P r.ingest_timestamp + 1) * P ≤ now - ttl) →
      get_node (evictExpired P ttl now log) id = none) := by
  constructor
  · intro r hr
    have hmem := List.mem_filter.1 hr
    have hpred : ¬ ((timeBucket P r.ingest_timestamp + 1) * P ≤ now - ttl) := by
      simpa using hmem.2
    by_contra hcon
    push_neg at hcon
    apply hpred
    calc (timeBucket P r.ingest_timestamp + 1) * P
        = timeBucket P r.ingest_timestamp * P + P := by ring
      _ ≤ r.ingest_timestamp + P := by
          have hdm := Nat.div_mul_le_self r.ingest_timestamp P
          simpa [timeBucket] using Nat.add_le_add_right hdm P
      _ ≤ now - ttl := hcon
  · intro id hid
    unfold get_node
    have hfil : (evictExpired P ttl now log).filter
        (fun r => r.public_key == id) = [] := by
      rw [List.filter_eq_nil_iff]
      intro r hr hbeq
      have hmem := List.mem_filter.1 hr
      have hkey : r.public_key = id := by simpa using hbeq
      have hdrop := hid r hmem.1 hkey
      have hpred : ¬ ((timeBucket P r.ingest_timestamp + 1) * P ≤ now - ttl) := by
        simpa using hmem.2
      exact hpred hdrop
    rw [hfil]
    rfl

/-- C3 witness: with now 200 the partition of the time-5 record is entirely
expired, the record is dropped, and the lookup of its identity rebuilds to
NotFound. -/
theorem retention_whole_partition_witness :
    (timeBucket 30 advOld.ingest_timestamp + 1) * 30 ≤ 200 - 90 ∧
    get_node (evictExpired 30 90 200 [advOld]) "N2" = none := by
  refine ⟨by decide, ?_⟩
  exact (retention_whole_partition 30 90 200 [advOld]).2 "N2" (by decide)

/-- The packets storage key is ingest-time-first, so key order implies
ingest order. -/
theorem packetKeyLE_ingest {a b : Packet} (h : packetKeyLE a b) : ingestLE a b := by
  rcases h with h | ⟨h, _⟩
  · exact le_of_lt h
  · exact le_of_eq h

/-- C6 counterexample: in `meshcore_adverts` the `ORDER BY` key is
`(public_key, ingest_timestamp)`, so two rows of one partition can be stored
in key order yet out of ingest-time order, contradicting the claim that the
stored order within a partition equals ingest-time order. -/
theorem adverts_store_order_not_ingest_order :
    [advStoreA, advStoreB].Sorted advertKeyLE ∧
    timeBucket 30 advStoreA.ingest_timestamp =
      timeBucket 30 advStoreB.ingest_timestamp ∧
    ¬ [advStoreA, advStoreB].Sorted
        (fun a b => a.ingest_timestamp ≤ b.ingest_timestamp) :=
  ⟨by decide, by decide, by decide⟩

/-- C6 (amended): for `meshcore_packets`, whose storage key starts with
`ingest_timestamp`, every partition is stored in ingest-time order, and a
scan concatenating bucket-homogeneous partitions in increasing bucket order
produces all records in ingest-time order. -/
theorem scan_packets_ingest_order (P : Nat) (parts : List (Nat × List Packet))
    (hsorted : ∀ pr ∈ parts, pr.2.Sorted packetKeyLE)
    (hbucket : ∀ pr ∈ parts, ∀ r ∈ pr.2, packetBucket P r = pr.1)
    (hinc : parts.Pairwise (fun x y => x.1 < y.1)) :
    (scanPackets parts).Sorted ingestLE := by
  unfold scanPackets
  show List.Pairwise ingestLE (parts.map Prod.snd).flatten
  rw [List.pairwise_flatten]
  constructor
  · intro l hl
    rcases List.mem_map.1 hl with ⟨pr, hpr, rfl⟩
    exact (hsorted pr hpr).imp (fun {a b} h => packetKeyLE_ingest h)
  · rw [List.pairwise_map]
    refine hinc.imp_of_mem ?_
    intro x y hx hy hlt a ha b hb
    have hba := hbucket x hx a ha
    have hbb := hbucket y hy b hb
    show a.ingest_timestamp ≤ b.ingest_timestamp
    by_contra hcon
    push_neg at hcon
    have hdiv : b.ingest_timestamp / P ≤ a.ingest_timestamp / P :=
      Nat.div_le_div_right hcon.le
    simp only [packetBucket, timeBucket] at hba hbb
    omega

/-- C6 witness: the two-partition packet store with width-30 buckets scans
out in ingest-time order. -/
theorem scan_packets_ingest_order_witness :
    (scanPackets examplePartitions).Sorted ingestLE :=
  scan_packets_ingest_order 30 examplePartitions (by decide) (by decide)
    (by decide)

/-- The catch block yields the 503 response exactly when the thrown value is
an `Error` whose message contains ClickHouse, the 500 response otherwise,
and never the success response. -/
theorem errorResponse_cases (e : Thrown) :
    (errorResponse e = dbErrorResponse ↔
      (e.isError && strIncludes e.message "ClickHouse") = true) ∧
    (errorResponse e = internalErrorResponse ↔
      (e.isError && strIncludes e.message "ClickHouse") = false) ∧
    errorResponse e ≠ okResponse := by
  unfold errorResponse
  by_cases h : (e.isError && strIncludes e.message "ClickHouse") = true
  · rw [if_pos h]
    refine ⟨by simp [h], ?_, by decide⟩
    simp [h, dbErrorResponse, internalErrorResponse]
  · rw [if_neg h]
    have hf : (e.isError && strIncludes e.message "ClickHouse") = false := by
      simpa using h
    refine ⟨?_, by simp [hf], by decide⟩
    simp [hf, dbErrorResponse, internalErrorResponse]

/-- A handler run that threw `e` satisfies the response specification. -/
theorem respSpec_error (e : Thrown) : respSpec (errorResponse e) (some e) := by
  obtain ⟨h1, h2, h3⟩ := errorResponse_cases e
  refine ⟨?_, by simp [h3], ?_, ?_⟩
  · rcases Bool.eq_false_or_eq_true (e.isError && strIncludes e.message "ClickHouse")
      with hb | hb
    · exact Or.inr (Or.inl (h1.mpr hb))
    · exact Or.inr (Or.inr (h2.mpr hb))
  · rw [h1]
    constructor
    · intro hb; exact ⟨e, rfl, hb⟩
    · rintro ⟨e2, he2, hc⟩
      injection he2 with he2
      rw [he2]; exact hc
  · rw [h2]
    constructor
    · intro hb; exact ⟨e, rfl, hb⟩
    · rintro ⟨e2, he2, hc⟩
      injection he2 with he2
      rw [he2]; exact hc

/-- A handler run that threw nothing satisfies the response
specification. -/
theorem respSpec_ok : respSpec okResponse none := by
  refine ⟨Or.inl rfl, by simp, ?_, ?_⟩
  · constructor
    · intro h; exact absurd h (by decide)
    · rintro ⟨e, he, _⟩; exact Option.noConfusion he
  · constructor
    · intro h; exact absurd h (by decide)
    · rintro ⟨e, he, _⟩; exact Option.noConfusion he

/-- When the body's `path` field is an array, the handler reaches the insert
with the joined path. -/
theorem POSTok_arr {body : JVal} {xs : List JVal} (put : Except Thrown Unit)
    (hx : body.getField "path" = some (.arr xs)) :
    (POSTok body put).putCalled = true ∧
    (POSTok body put).insertedPath = some (jsJoinEmpty xs) := by
  have hjp : pathJoinResult body = .ok (jsJoinEmpty xs) := by
    unfold pathJoinResult; rw [hx]
  unfold POSTok
  rw [hjp]
  cases put <;> exact ⟨rfl, rfl⟩

/-- When the body's `path` field is missing or not an array, the handler
answers 500 INTERNAL_ERROR without reaching the insert. -/
theorem POSTok_nonArray {body : JVal} (put : Except Thrown Unit)
    (hna : isPathArray body = false) :
    POSTok body put =
      { response := internalErrorResponse, putCalled := false,
        insertedPath := none } := by
  have hjp : pathJoinResult body = .error missingJoinThrown ∨
      pathJoinResult body = .error nonArrayJoinThrown := by
    unfold isPathArray at hna
    unfold pathJoinResult
    cases hg : body.getField "path" with
    | none => exact Or.inl rfl
    | some v =>
        rw [hg] at hna
        cases v with
        | arr xs => exact absurd hna (by simp)
        | null => exact Or.inr rfl
        | bool b => exact Or.inr rfl
        | num n => exact Or.inr rfl
        | str s => exact Or.inr rfl
        | obj fs => exact Or.inr rfl
  unfold POSTok
  rcases hjp with h | h
  · rw [h]; rfl
  · rw [h]; rfl

/-- C9: for every parse outcome and every insert outcome the handler returns
exactly one of the three responses — 200 ok exactly when nothing was thrown,
503 DATABASE_ERROR exactly when the thrown value is an `Error` whose message
contains the substring ClickHouse, and 500 INTERNAL_ERROR exactly on every
other thrown value — never propagating an exception. -/
theorem post_response_trichotomy (parsed : Except Thrown JVal)
    (put : Except Thrown Unit) :
    ((POST parsed put).response = okResponse ∨
      (POST parsed put).response = dbErrorResponse ∨
      (POST parsed put).response = internalErrorResponse) ∧
    ((POST parsed put).response = okResponse ↔ thrownOf parsed put = none) ∧
    ((POST parsed put).response = dbErrorResponse ↔
      ∃ e, thrownOf parsed put = some e ∧
        (e.isError && strIncludes e.message "ClickHouse") = true) ∧
    ((POST parsed put).response = internalErrorResponse ↔
      ∃ e, thrownOf parsed put = some e ∧
        (e.isError && strIncludes e.message "ClickHouse") = false) := by
  show respSpec (POST parsed put).response (thrownOf parsed put)
  cases parsed with
  | error e => exact respSpec_error e
  | ok body =>
      show respSpec (POSTok body put).response (thrownOfOk body put)
      unfold POSTok thrownOfOk
      cases hjp : pathJoinResult body with
      | error e => exact respSpec_error e
      | ok p =>
          cases put with
          | ok u => exact respSpec_ok
          | error e => exact respSpec_error e

/-- C10: the handler overwrites the sample path with the empty-separator
concatenation of the body's `path` array before inserting, and when the
`path` field is missing or not an array the join throws, the insert is never
reached, and the handler answers with the 500 INTERNAL_ERROR response. -/
theorem post_overwrites_path (body : JVal) (put : Except Thrown Unit) :
    (∀ xs, body.getField "path" = some (.arr xs) →
      (POST (.ok body) put).putCalled = true ∧
      (POST (.ok body) put).insertedPath = some (jsJoinEmpty xs)) ∧
    (isPathArray body = false →
      (POST (.ok body) put).putCalled = false ∧
      (POST (.ok body) put).insertedPath = none ∧
      (POST (.ok body) put).response = internalErrorResponse) := by
  constructor
  · intro xs hx
    exact POSTok_arr put hx
  · intro hna
    have h := POSTok_nonArray put hna
    show (POSTok body put).putCalled = false ∧
      (POSTok body put).insertedPath = none ∧
      (POSTok body put).response = internalErrorResponse
    rw [h]
    exact ⟨rfl, rfl, rfl⟩

/-- C10 witness: the concrete body with path ["ab", "cd"] inserts the joined
path "abcd"; the concrete body without a path field is rejected with 500 and
never inserted. -/
theorem post_overwrites_path_witness :
    (POST (.ok bodyGood) (.ok ())).putCalled = true ∧
    (POST (.ok bodyGood) (.ok ())).insertedPath = some "abcd" ∧
    (POST (.ok bodyNoPath) (.ok ())).putCalled = false ∧
    (POST (.ok bodyNoPath) (.ok ())).response = internalErrorResponse := by
  have hg := (post_overwrites_path bodyGood (.ok ())).1
    [JVal.str "ab", JVal.str "cd"] rfl
  have hb := (post_overwrites_path bodyNoPath (.ok ())).2 rfl
  exact ⟨hg.1, hg.2.trans rfl, hb.1, hb.2.2⟩

/-- C8 counterexample: a sample whose latitude 200 is far outside [-90, 90]
is not rejected with any MalformedRecord error — the handler inserts it and
answers 200 ok, so out-of-range records do enter the log. -/
theorem put_sample_no_range_validation :
    (POST (.ok bodyOutOfRange) (.ok ())).putCalled = true ∧
    (POST (.ok bodyOutOfRange) (.ok ())).response = okResponse := ⟨rfl, rfl⟩

/-- C8 (amended): the handler validates nothing about identity, timestamp or
coordinate ranges — every parsed body whose `path` field is an array reaches
the insert whatever its other fields hold; the only malformed shape rejected
is a missing or non-array `path`, failing with the generic 500
INTERNAL_ERROR (not a MalformedRecord error) before any insert; the
pre-insert transform is the pure function of the body modelled here. -/
theorem put_sample_validation_behavior (body : JVal)
    (put : Except Thrown Unit) :
    (∀ xs, body.getField "path" = some (.arr xs) →
      (POST (.ok body) put).putCalled = true) ∧
    (isPathArray body = false →
      (POST (.ok body) put).putCalled = false ∧
      (POST (.ok body) put).response.status = 500 ∧
      (POST (.ok body) put).response.code = some "INTERNAL_ERROR") := by
  constructor
  · intro xs hx
    exact (POSTok_arr put hx).1
  · intro hna
    have h := POSTok_nonArray put hna
    show (POSTok body put).putCalled = false ∧
      (POSTok body put).response.status = 500 ∧
      (POSTok body put).response.code = some "INTERNAL_ERROR"
    rw [h]
    exact ⟨rfl, rfl, rfl⟩

/-- C8 witness: the out-of-range body is inserted unvalidated; the body
without a path is rejected with status 500 before the insert. -/
theorem put_sample_validation_behavior_witness :
    (POST (.ok bodyOutOfRange) (.ok ())).putCalled = true ∧
    (POST (.ok bodyNoPath) (.ok ())).putCalled = false ∧
    (POST (.ok bodyNoPath) (.ok ())).response.status = 500 := by
  refine ⟨(put_sample_validation_behavior bodyOutOfRange (.ok ())).1 [] rfl,
    ?_, ?_⟩
  · exact ((put_sample_validation_behavior bodyNoPath (.ok ())).2 rfl).1
  · exact ((put_sample_validation_behavior bodyNoPath (.ok ())).2 rfl).2.1

/-- C5 witness: the scenario conjunct evaluated through the theorem at the
two concrete adverts. -/
theorem adverts_latest_state_fields_witness :
    get_node [advAlice1, advAlice2] "N1" =
      some { attrs := advAttrs advAlice2, first_seen := 1, last_seen := 2,
             advert_count := 2 } :=
  (adverts_latest_state_fields advAlice1 [advAlice2]).2.1

/-- C9 witness: a concrete run whose insert throws an `Error` mentioning
ClickHouse is answered with the 503 DATABASE_ERROR response. -/
theorem post_response_trichotomy_witness :
    (POST (.ok bodyGood)
      (.error { isError := true,
                message := "ClickHouse connection failed" })).response =
      dbErrorResponse := by
  have h := (post_response_trichotomy (.ok bodyGood)
    (.error { isError := true, message := "ClickHouse connection failed" })).2.2.1
  exact h.mpr ⟨{ isError := true, message := "ClickHouse connection failed" },
    rfl, by decide⟩
